import Mathlib

/-!
# Verification of the training-loop orchestrator (`engine/engine_train.py`)

Shallow embedding of the `Trainer` class of `torch-Classification`.

Conventions of the embedding:
* A Python float produced by `np.mean` is modelled as `Option ℚ`:
  `np.mean` of an empty list is NaN, modelled as `none`; a float comparison
  `x > y` where `x` may be NaN is modelled by `floatGT`, which is `false`
  on `none` (exactly as every comparison against NaN is false).
* A batch is represented by the externally produced numbers the orchestrator
  actually consumes: the scalar loss, the per-sample correctness indicators
  `(logits.argmax(dim=-1) == targets)`, and (for training) the learning rate
  read from the optimizer at the start of the batch.
* Side effects (optimizer calls, EMA update, logging, checkpointing, gc) are
  recorded as an explicit event trace, in source order.
-/

namespace TorchClassification

/-- Result record `{"Accuracy": ..., "Loss": ...}` returned by
`train_one_epoch` / `valid_one_epoch`; `none` models a NaN float. -/
structure Metrics where
  Accuracy : Option ℚ
  Loss : Option ℚ
  deriving DecidableEq, Repr

/-- `np.mean` over a history list: NaN (`none`) on the empty list,
otherwise the arithmetic mean. -/
def npMean (l : List ℚ) : Option ℚ :=
  if l.isEmpty then none else some (l.sum / l.length)

/-- Per-batch accuracy `(logits.argmax(dim=-1) == targets).float().mean()`:
the fraction of true entries among the per-sample correctness indicators. -/
def batchAcc (correct : List Bool) : ℚ :=
  ((correct.countP id : ℕ) : ℚ) / correct.length

/-- Data consumed from one validation batch: the criterion loss and the
per-sample correctness indicators of the selected model's logits. -/
structure VBatch where
  loss : ℚ
  correct : List Bool
  deriving DecidableEq, Repr

/-- Data consumed from one training batch: the (mix-aware) criterion loss,
the per-sample correctness indicators, and the learning rate read from
`optimizer.param_groups[0]["lr"]` at the start of the batch. -/
structure TBatch where
  loss : ℚ
  correct : List Bool
  lr : ℚ
  deriving DecidableEq, Repr

/-- The two models held by the `Trainer`. -/
inductive ModelKind
  | live
  | ema
  deriving DecidableEq, Repr

/-- Line 158 of `engine_train.py`:
`model = self.model if isEMA else self.model_ema`.
The Python conditional selects `self.model` (the live model) when `isEMA`
is truthy and `self.model_ema` when it is falsy. -/
def selectedValidModel (isEMA : Bool) : ModelKind :=
  if isEMA then ModelKind.live else ModelKind.ema

/-- Observable side effects of the orchestrator, in source order. -/
inductive Event
  | zeroGrad
  | backward
  | optStep
  | emaUpdate
  | sinkScalar (tag : String) (value : ℚ) (step : ℕ)
  | textLog (meanLoss meanAcc : Option ℚ) (lr : ℚ)
  | schedulerStep (arg : ℕ)
  | validCall (epoch : ℕ) (isEMA : Bool)
  | gcCollect
  | saveCheckpoint (epoch : ℕ) (is_best is_ema_best : Bool)
  | writeLogCall (epoch : ℕ)
  deriving DecidableEq, Repr

/-- Mutable state threaded through the loop of `train_one_epoch`:
the trainer-wide `self.log_iter` counter and the per-epoch histories. -/
structure TrainState where
  log_iter : ℕ
  loss_history : List ℚ
  acc_history : List ℚ
  deriving DecidableEq, Repr

/-- Body of the `for batch_idx, batch in enumerate(self.train_loader)` loop
(lines 90-146): zero gradients, backpropagate, optimizer step, EMA update,
append loss/accuracy to the histories, then (on iterations where
`log_iter % log_freq == 0`) write the instantaneous batch accuracy and loss
to the metrics sink and the running means plus learning rate to the text
log, and finally increment `log_iter`. -/
def trainBatchStep (log_freq : ℕ) (s : TrainState) (b : TBatch) :
    TrainState × List Event :=
  let loss_history := s.loss_history ++ [b.loss]
  let acc_history := s.acc_history ++ [batchAcc b.correct]
  let logEvents :=
    if s.log_iter % log_freq = 0 then
      [Event.sinkScalar "Train/Accuracy_iter" (acc_history.getLastD 0) s.log_iter,
       Event.sinkScalar "Train/Loss_iter" (loss_history.getLastD 0) s.log_iter,
       Event.textLog (npMean loss_history) (npMean acc_history) b.lr]
    else []
  (⟨s.log_iter + 1, loss_history, acc_history⟩,
   [Event.zeroGrad, Event.backward, Event.optStep, Event.emaUpdate] ++ logEvents)

/-- The training loop folded over the batches yielded by the loader. -/
def trainEpochStep (log_freq : ℕ) : TrainState → List TBatch → TrainState × List Event
  | s, [] => (s, [])
  | s, b :: bs =>
    let p := trainBatchStep log_freq s b
    let q := trainEpochStep log_freq p.1 bs
    (q.1, p.2 ++ q.2)

/-- `Trainer.train_one_epoch` (lines 82-153): runs the loop starting from
empty histories and the current `self.log_iter`, and returns the epoch
metrics (`np.mean` of the histories), the updated `log_iter`, and the
emitted events. -/
def trainOneEpoch (log_freq log_iter0 : ℕ) (batches : List TBatch) :
    Metrics × ℕ × List Event :=
  let r := trainEpochStep log_freq ⟨log_iter0, [], []⟩ batches
  ({ Accuracy := npMean r.1.acc_history, Loss := npMean r.1.loss_history },
   r.1.log_iter, r.2)

/-- `Trainer.valid_one_epoch` (lines 155-188), metrics computation: per
batch, append the criterion loss and the mean correctness of the selected
model's logits; return `np.mean` of both histories. -/
def validOneEpoch (batches : List VBatch) : Metrics :=
  { Accuracy := npMean (batches.map fun b => batchAcc b.correct),
    Loss := npMean (batches.map VBatch.loss) }

/-- The `Trainer` fields that `valid_one_epoch` could in principle touch:
the train/eval mode flags of the two models (`true` = train mode) and the
bookkeeping scalars `log_iter`, `best_model_metric`, `best_model_ema_metric`. -/
structure TrainerFields where
  modelTrainMode : Bool
  modelEmaTrainMode : Bool
  log_iter : ℕ
  best_model_metric : ℚ
  best_model_ema_metric : ℚ
  deriving DecidableEq, Repr

/-- `model.eval()` on the selected model: clears its train-mode flag. -/
def setEvalMode (t : TrainerFields) : ModelKind → TrainerFields
  | ModelKind.live => { t with modelTrainMode := false }
  | ModelKind.ema => { t with modelEmaTrainMode := false }

/-- `Trainer.valid_one_epoch` with its effect on the trainer fields made
explicit: it calls `model.eval()` on the model chosen by
`selectedValidModel` and computes the metrics; nothing else is written. -/
def validOneEpochState (t : TrainerFields) (isEMA : Bool) (batches : List VBatch) :
    Metrics × TrainerFields :=
  (validOneEpoch batches, setEvalMode t (selectedValidModel isEMA))

/-- Float comparison `acc > best` where `acc` may be NaN (`none`):
every comparison against NaN is false. -/
def floatGT : Option ℚ → ℚ → Bool
  | none, _ => false
  | some a, b => decide (b < a)

/-- Lines 243-251 of `run` for one metric: `is_best = False;
if metrics["Accuracy"] > best: best = metrics["Accuracy"]; is_best = True`.
Returns the flag and the new stored best. -/
def bestUpdate (acc : Option ℚ) (best : ℚ) : Bool × ℚ :=
  if floatGT acc best then (true, acc.getD best) else (false, best)

/-- Bookkeeping state threaded through `Trainer.run`. -/
structure RunState where
  best_model_metric : ℚ
  best_model_ema_metric : ℚ
  log_iter : ℕ
  deriving DecidableEq, Repr

/-- The externally produced per-epoch data: the training batches and the
validation batches as seen by the first (`isEMA=False`) and second
(`isEMA=True`) `valid_one_epoch` call (the two calls run different models
on the same loader, hence different losses/correctness). -/
structure EpochData where
  train : List TBatch
  valid : List VBatch
  validEma : List VBatch
  deriving Repr

/-- Body of the epoch loop of `Trainer.run` (lines 227-274): scheduler step
with argument `epoch + 1`, `train_one_epoch`, `valid_one_epoch`,
`valid_one_epoch(isEMA=True)`, `gc.collect()`, the two best-metric
comparisons, `save_checkpoint` with the two flags, and `write_log`. -/
def epochBody (log_freq : ℕ) (s : RunState) (epoch : ℕ) (d : EpochData) :
    RunState × List Event :=
  let tr := trainOneEpoch log_freq s.log_iter d.train
  let valid_metrics := validOneEpoch d.valid
  let valid_ema_metrics := validOneEpoch d.validEma
  let ub := bestUpdate valid_metrics.Accuracy s.best_model_metric
  let ue := bestUpdate valid_ema_metrics.Accuracy s.best_model_ema_metric
  (⟨ub.2, ue.2, tr.2.1⟩,
   Event.schedulerStep (epoch + 1) :: tr.2.2 ++
     [Event.validCall epoch false, Event.validCall epoch true, Event.gcCollect,
      Event.saveCheckpoint epoch ub.1 ue.1, Event.writeLogCall epoch])

/-- The epoch loop folded over the list of epoch indices. -/
def runEpochs (log_freq : ℕ) (data : ℕ → EpochData) :
    RunState → List ℕ → RunState × List Event
  | s, [] => (s, [])
  | s, e :: es =>
    let p := epochBody log_freq s e (data e)
    let q := runEpochs log_freq data p.1 es
    (q.1, p.2 ++ q.2)

/-- `Trainer.run` (lines 214-274): one dummy `zero_grad`/`step` pair, then
the epoch loop over `range(start_epoch, max_epoch)`. -/
def run (log_freq start_epoch max_epoch : ℕ) (data : ℕ → EpochData)
    (s : RunState) : RunState × List Event :=
  let r := runEpochs log_freq data s (List.range' start_epoch (max_epoch - start_epoch))
  (r.1, Event.zeroGrad :: Event.optStep :: r.2)

/-- Events that `train_one_epoch` can emit (batch-level effects). -/
def isBatchLevel : Event → Bool
  | Event.zeroGrad => true
  | Event.backward => true
  | Event.optStep => true
  | Event.emaUpdate => true
  | Event.sinkScalar _ _ _ => true
  | Event.textLog _ _ _ => true
  | _ => false

/-- Recognizes a scheduler-step event. -/
def isSchedulerStep : Event → Bool
  | Event.schedulerStep _ => true
  | _ => false

/-- Recognizes a checkpoint-save event. -/
def isSaveCheckpoint : Event → Bool
  | Event.saveCheckpoint _ _ _ => true
  | _ => false

/-- Recognizes an EMA-update event. -/
def isEmaUpdate : Event → Bool
  | Event.emaUpdate => true
  | _ => false

/-- The argument of a scheduler-step event, if any. -/
def schedArg : Event → Option ℕ
  | Event.schedulerStep n => some n
  | _ => none

/-- The scalar carried by a metrics-sink event, if any. -/
def sinkValue : Event → Option ℚ
  | Event.sinkScalar _ v _ => some v
  | _ => none

/-- The loss value carried by a text-log event, if any. -/
def textLogLoss : Event → Option (Option ℚ)
  | Event.textLog ml _ _ => some ml
  | _ => none

/-! ## Helper lemmas -/

lemma floatGT_iff (acc : Option ℚ) (best : ℚ) :
    floatGT acc best = true ↔ ∃ a, acc = some a ∧ best < a := by
  cases acc <;> simp [floatGT]

lemma bestUpdate_le (acc : Option ℚ) (best : ℚ) : best ≤ (bestUpdate acc best).2 := by
  cases acc with
  | none => simp [bestUpdate, floatGT]
  | some a =>
    by_cases h : best < a
    · simp only [bestUpdate, floatGT, decide_eq_true_eq, if_pos h]
      exact le_of_lt h
    · simp [bestUpdate, floatGT, h]

lemma bestUpdate_flag (acc : Option ℚ) (best : ℚ) :
    (bestUpdate acc best).1 = true ↔ ∃ a, acc = some a ∧ best < a := by
  rw [← floatGT_iff]
  by_cases h : floatGT acc best <;> simp [bestUpdate, h]

lemma trainBatchStep_fst (lf : ℕ) (s : TrainState) (b : TBatch) :
    (trainBatchStep lf s b).1 =
      ⟨s.log_iter + 1, s.loss_history ++ [b.loss],
       s.acc_history ++ [batchAcc b.correct]⟩ := rfl

lemma trainBatchStep_batchLevel (lf : ℕ) (s : TrainState) (b : TBatch) :
    ∀ ev ∈ (trainBatchStep lf s b).2, isBatchLevel ev = true := by
  intro ev hev
  by_cases h : s.log_iter % lf = 0 <;>
    simp only [trainBatchStep, h, if_true, if_false, List.mem_append,
      List.mem_cons, List.mem_singleton, List.not_mem_nil, or_false] at hev <;>
    rcases hev with (rfl | rfl | rfl | rfl) | (rfl | rfl | rfl) <;> rfl

lemma trainEpochStep_batchLevel (lf : ℕ) :
    ∀ (bs : List TBatch) (s : TrainState),
      ∀ ev ∈ (trainEpochStep lf s bs).2, isBatchLevel ev = true := by
  intro bs
  induction bs with
  | nil => intro s ev hev; simp [trainEpochStep] at hev
  | cons b bs ih =>
    intro s ev hev
    simp only [trainEpochStep, List.mem_append] at hev
    rcases hev with h | h
    · exact trainBatchStep_batchLevel lf s b ev h
    · exact ih _ ev h

lemma countP_eq_zero_of_batchLevel (p : Event → Bool)
    (hp : ∀ ev, isBatchLevel ev = true → p ev = false)
    (l : List Event) (hl : ∀ ev ∈ l, isBatchLevel ev = true) :
    l.countP p = 0 := by
  rw [List.countP_eq_zero]
  intro a ha
  simp [hp a (hl a ha)]

lemma filterMap_schedArg_eq_nil (l : List Event)
    (hl : ∀ ev ∈ l, isBatchLevel ev = true) :
    l.filterMap schedArg = [] := by
  induction l with
  | nil => rfl
  | cons a l ih =>
    have ha : schedArg a = none := by
      have := hl a (List.mem_cons_self a l)
      cases a <;> simp_all [isBatchLevel, schedArg]
    rw [List.filterMap_cons_none ha]
    exact ih fun ev hev => hl ev (List.mem_cons_of_mem a hev)

lemma filter_eq_nil_of_batchLevel (p : Event → Bool)
    (hp : ∀ ev, isBatchLevel ev = true → p ev = false)
    (l : List Event) (hl : ∀ ev ∈ l, isBatchLevel ev = true) :
    l.filter p = [] := by
  rw [List.filter_eq_nil_iff]
  intro a ha
  simp [hp a (hl a ha)]

lemma trainEpochStep_fst (lf : ℕ) :
    ∀ (bs : List TBatch) (i : ℕ) (lh ah : List ℚ),
      (trainEpochStep lf ⟨i, lh, ah⟩ bs).1 =
        ⟨i + bs.length, lh ++ bs.map TBatch.loss,
         ah ++ bs.map fun b => batchAcc b.correct⟩ := by
  intro bs
  induction bs with
  | nil => intro i lh ah; simp [trainEpochStep]
  | cons b bs ih =>
    intro i lh ah
    have h1 : (trainEpochStep lf ⟨i, lh, ah⟩ (b :: bs)).1 =
        (trainEpochStep lf ⟨i + 1, lh ++ [b.loss],
          ah ++ [batchAcc b.correct]⟩ bs).1 := rfl
    rw [h1, ih]
    simp [List.append_assoc, Nat.add_assoc, Nat.add_comm 1 bs.length]

lemma npMean_mem_unitInterval (l : List ℚ) (hne : l ≠ [])
    (h : ∀ x ∈ l, 0 ≤ x ∧ x ≤ 1) :
    ∃ a, npMean l = some a ∧ 0 ≤ a ∧ a ≤ 1 := by
  have hlen : 0 < l.length := List.length_pos.mpr hne
  have hlenQ : (0 : ℚ) < l.length := by exact_mod_cast hlen
  refine ⟨l.sum / l.length, ?_, ?_, ?_⟩
  · have : l.isEmpty = false := by
      simp [List.isEmpty_iff, hne]
    simp [npMean, this]
  · exact div_nonneg (List.sum_nonneg fun x hx => (h x hx).1) (le_of_lt hlenQ)
  · rw [div_le_one hlenQ]
    calc l.sum ≤ l.length • (1 : ℚ) :=
          List.sum_le_card_nsmul l 1 fun x hx => (h x hx).2
      _ = l.length := by simp

lemma batchAcc_mem_unitInterval (c : List Bool) (hc : c ≠ []) :
    0 ≤ batchAcc c ∧ batchAcc c ≤ 1 := by
  have hlen : 0 < c.length := List.length_pos.mpr hc
  have hlenQ : (0 : ℚ) < c.length := by exact_mod_cast hlen
  constructor
  · exact div_nonneg (by positivity) (le_of_lt hlenQ)
  · rw [batchAcc, div_le_one hlenQ]
    exact_mod_cast List.countP_le_length id

/-! ## Claim theorems -/

/-- C1: the claim states that `valid_one_epoch(epoch, isEMA)` runs the EMA
shadow model iff `isEMA` is true and the live model iff `isEMA` is false.
Line 158 (`model = self.model if isEMA else self.model_ema`) does the
opposite: evaluated at the failing input `isEMA = True` (the call
`valid_one_epoch(epoch, isEMA=True)` made by `run`, which `run`'s own
comment labels the EMA validation), the selected model is the live model,
and at `isEMA = False` it is the EMA model. -/
theorem valid_model_selection_inverted :
    selectedValidModel true = ModelKind.live ∧
    selectedValidModel false = ModelKind.ema ∧
    ¬ (selectedValidModel true = ModelKind.ema ∧
       selectedValidModel false = ModelKind.live) := by
  decide

/-- C2: within each epoch of `run`, exactly one `save_checkpoint` call is
made, and the `is_best` (resp. `is_ema_best`) flag it carries is true iff
the epoch's validation accuracy (resp. EMA-validation accuracy) is a
defined value strictly greater than the best metric stored before that
epoch's comparison. -/
theorem save_checkpoint_is_best_iff (lf : ℕ) (s : RunState) (e : ℕ) (d : EpochData) :
    ∃ b be,
      ((epochBody lf s e d).2).filter isSaveCheckpoint =
        [Event.saveCheckpoint e b be] ∧
      (b = true ↔ ∃ a, (validOneEpoch d.valid).Accuracy = some a ∧
        s.best_model_metric < a) ∧
      (be = true ↔ ∃ a, (validOneEpoch d.validEma).Accuracy = some a ∧
        s.best_model_ema_metric < a) := by
  refine ⟨(bestUpdate (validOneEpoch d.valid).Accuracy s.best_model_metric).1,
    (bestUpdate (validOneEpoch d.validEma).Accuracy s.best_model_ema_metric).1,
    ?_, bestUpdate_flag _ _, bestUpdate_flag _ _⟩
  have hev : (epochBody lf s e d).2 =
      Event.schedulerStep (e + 1) ::
        (trainEpochStep lf ⟨s.log_iter, [], []⟩ d.train).2 ++
        [Event.validCall e false, Event.validCall e true, Event.gcCollect,
         Event.saveCheckpoint e
           (bestUpdate (validOneEpoch d.valid).Accuracy s.best_model_metric).1
           (bestUpdate (validOneEpoch d.validEma).Accuracy s.best_model_ema_metric).1,
         Event.writeLogCall e] := rfl
  have hnil : ((trainEpochStep lf ⟨s.log_iter, [], []⟩ d.train).2).filter
      isSaveCheckpoint = [] := by
    refine filter_eq_nil_of_batchLevel _ ?_ _
      (trainEpochStep_batchLevel lf d.train ⟨s.log_iter, [], []⟩)
    intro ev h
    cases ev <;> simp_all [isBatchLevel, isSaveCheckpoint]
  rw [hev]
  simp [List.filter_append, hnil, List.filter, isSaveCheckpoint]

/-- C3: the stored best metrics are monotone: across one epoch body and
across any run of the epoch loop, `best_model_metric` and
`best_model_ema_metric` never decrease. -/
theorem best_metrics_monotone (lf : ℕ) :
    (∀ (s : RunState) (e : ℕ) (d : EpochData),
        s.best_model_metric ≤ (epochBody lf s e d).1.best_model_metric ∧
        s.best_model_ema_metric ≤ (epochBody lf s e d).1.best_model_ema_metric) ∧
    (∀ (data : ℕ → EpochData) (es : List ℕ) (s : RunState),
        s.best_model_metric ≤ (runEpochs lf data s es).1.best_model_metric ∧
        s.best_model_ema_metric ≤
          (runEpochs lf data s es).1.best_model_ema_metric) := by
  have hbody : ∀ (s : RunState) (e : ℕ) (d : EpochData),
      s.best_model_metric ≤ (epochBody lf s e d).1.best_model_metric ∧
      s.best_model_ema_metric ≤ (epochBody lf s e d).1.best_model_ema_metric :=
    fun s e d => ⟨bestUpdate_le _ _, bestUpdate_le _ _⟩
  refine ⟨hbody, ?_⟩
  intro data es
  induction es with
  | nil => exact fun s => ⟨le_refl _, le_refl _⟩
  | cons e es ih =>
    intro s
    have h1 := hbody s e (data e)
    have h2 := ih (epochBody lf s e (data e)).1
    have hq : (runEpochs lf data s (e :: es)).1 =
        (runEpochs lf data (epochBody lf s e (data e)).1 es).1 := rfl
    rw [hq]
    exact ⟨le_trans h1.1 h2.1, le_trans h1.2 h2.2⟩

/-- C4: per training batch, the emitted effects start with the fixed
sequence zero-grad, backward, optimizer step, EMA update (so the EMA
update comes right after the optimizer step), the EMA update occurs
exactly once in the batch, and over a whole epoch the number of EMA
updates equals the number of batches yielded by the loader. -/
theorem ema_update_once_after_optimizer_step (lf : ℕ) :
    (∀ (s : TrainState) (b : TBatch),
        ((trainBatchStep lf s b).2).take 4 =
          [Event.zeroGrad, Event.backward, Event.optStep, Event.emaUpdate] ∧
        ((trainBatchStep lf s b).2).countP isEmaUpdate = 1) ∧
    (∀ (bs : List TBatch) (s : TrainState),
        ((trainEpochStep lf s bs).2).countP isEmaUpdate = bs.length) := by
  have hbatch : ∀ (s : TrainState) (b : TBatch),
      ((trainBatchStep lf s b).2).take 4 =
        [Event.zeroGrad, Event.backward, Event.optStep, Event.emaUpdate] ∧
      ((trainBatchStep lf s b).2).countP isEmaUpdate = 1 := by
    intro s b
    refine ⟨rfl, ?_⟩
    by_cases h : s.log_iter % lf = 0 <;>
      simp [trainBatchStep, h, List.countP_append, List.countP_cons, isEmaUpdate]
  refine ⟨hbatch, ?_⟩
  intro bs
  induction bs with
  | nil => intro s; rfl
  | cons b bs ih =>
    intro s
    have hq : (trainEpochStep lf s (b :: bs)).2 =
        (trainBatchStep lf s b).2 ++
          (trainEpochStep lf (trainBatchStep lf s b).1 bs).2 := rfl
    rw [hq, List.countP_append, (hbatch s b).2, ih (trainBatchStep lf s b).1]
    simp [Nat.add_comm]

/-- C5 (amended): the events a training batch emits after the four
gradient/EMA operations are exactly: when `log_iter % log_freq = 0`, the
instantaneous batch accuracy and batch loss to the metrics sink, and one
text-log line carrying the running mean loss, the running mean accuracy
and the current learning rate; otherwise nothing. In particular the
learning rate never goes to the metrics sink, and the text log receives
running means rather than instantaneous values. -/
theorem logfreq_iteration_emissions (lf : ℕ) (s : TrainState) (b : TBatch) :
    ((trainBatchStep lf s b).2).drop 4 =
      (if s.log_iter % lf = 0 then
        [Event.sinkScalar "Train/Accuracy_iter" (batchAcc b.correct) s.log_iter,
         Event.sinkScalar "Train/Loss_iter" b.loss s.log_iter,
         Event.textLog (npMean (s.loss_history ++ [b.loss]))
           (npMean (s.acc_history ++ [batchAcc b.correct])) b.lr]
       else []) := by
  by_cases h : s.log_iter % lf = 0 <;>
    simp [trainBatchStep, h, List.getLastD_concat]

/-- C5 (counterexample): run two training batches with `log_freq = 1`
(every iteration logs), learning rate `5`, batch losses `2` and `4` and
batch accuracies `1` and `1/2`. No metrics-sink event ever carries the
learning rate `5`, and no text-log line carries the second batch's
instantaneous loss `4` — the text log of that iteration carries the
running mean `3` instead. This refutes the claim that the instantaneous
accuracy, loss and learning rate are all emitted both to the metrics sink
and to the text log. -/
theorem logfreq_iteration_claim_counterexample :
    (¬ ∃ ev ∈ (trainEpochStep 1 ⟨0, [], []⟩
        [⟨2, [true], 5⟩, ⟨4, [true, false], 5⟩]).2, sinkValue ev = some 5) ∧
    (¬ ∃ ev ∈ (trainEpochStep 1 ⟨0, [], []⟩
        [⟨2, [true], 5⟩, ⟨4, [true, false], 5⟩]).2,
        textLogLoss ev = some (some 4)) ∧
    (∃ ev ∈ (trainEpochStep 1 ⟨0, [], []⟩
        [⟨2, [true], 5⟩, ⟨4, [true, false], 5⟩]).2,
        textLogLoss ev = some (some 3)) := by
  have htr : (trainEpochStep 1 ⟨0, [], []⟩
      [⟨2, [true], 5⟩, ⟨4, [true, false], 5⟩]).2 =
      [Event.zeroGrad, Event.backward, Event.optStep, Event.emaUpdate,
       Event.sinkScalar "Train/Accuracy_iter" 1 0,
       Event.sinkScalar "Train/Loss_iter" 2 0,
       Event.textLog (some 2) (some 1) 5,
       Event.zeroGrad, Event.backward, Event.optStep, Event.emaUpdate,
       Event.sinkScalar "Train/Accuracy_iter" (1 / 2) 1,
       Event.sinkScalar "Train/Loss_iter" 4 1,
       Event.textLog (some 3) (some (3 / 4)) 5] := by
    norm_num [trainEpochStep, trainBatchStep, batchAcc, npMean,
      List.getLastD_concat]
  rw [htr]
  refine ⟨?_, ?_, ?_⟩
  · rintro ⟨ev, hev, hv⟩
    simp only [List.mem_cons, List.not_mem_nil, or_false] at hev
    rcases hev with rfl | rfl | rfl | rfl | rfl | rfl | rfl | rfl | rfl
      | rfl | rfl | rfl | rfl | rfl <;>
      simp [sinkValue] at hv
    all_goals norm_num at hv
  · rintro ⟨ev, hev, hv⟩
    simp only [List.mem_cons, List.not_mem_nil, or_false] at hev
    rcases hev with rfl | rfl | rfl | rfl | rfl | rfl | rfl | rfl | rfl
      | rfl | rfl | rfl | rfl | rfl <;>
      simp [textLogLoss] at hv
  · exact ⟨Event.textLog (some 3) (some (3 / 4)) 5, by simp, rfl⟩

/-- C6: over a non-empty loader whose batches are non-empty, the epoch
Accuracy returned by `train_one_epoch` and by `valid_one_epoch` is a
defined value in the closed interval `[0, 1]`. -/
theorem epoch_accuracy_in_unit_interval (lf li : ℕ) (tb : List TBatch)
    (vb : List VBatch) (htb : tb ≠ []) (htbc : ∀ b ∈ tb, b.correct ≠ [])
    (hvb : vb ≠ []) (hvbc : ∀ b ∈ vb, b.correct ≠ []) :
    (∃ a, (trainOneEpoch lf li tb).1.Accuracy = some a ∧ 0 ≤ a ∧ a ≤ 1) ∧
    (∃ a, (validOneEpoch vb).Accuracy = some a ∧ 0 ≤ a ∧ a ≤ 1) := by
  constructor
  · have hacc : (trainOneEpoch lf li tb).1.Accuracy =
        npMean (tb.map fun b => batchAcc b.correct) := by
      show npMean (trainEpochStep lf ⟨li, [], []⟩ tb).1.acc_history = _
      rw [trainEpochStep_fst]
      simp
    rw [hacc]
    apply npMean_mem_unitInterval
    · simpa using htb
    · intro x hx
      simp only [List.mem_map] at hx
      obtain ⟨b, hb, rfl⟩ := hx
      exact batchAcc_mem_unitInterval b.correct (htbc b hb)
  · apply npMean_mem_unitInterval
    · simpa using hvb
    · intro x hx
      simp only [List.mem_map] at hx
      obtain ⟨b, hb, rfl⟩ := hx
      exact batchAcc_mem_unitInterval b.correct (hvbc b hb)

/-- Witness for C6 at a concrete input: one training batch with a single
correct sample, and the two validation batches of the spec's scenario
(per-batch accuracies `3/5` and `4/5`). -/
theorem epoch_accuracy_in_unit_interval_witness :
    (∃ a, (trainOneEpoch 1 0 [⟨2, [true], 5⟩]).1.Accuracy = some a ∧
      0 ≤ a ∧ a ≤ 1) ∧
    (∃ a, (validOneEpoch [⟨1, [true, true, true, false, false]⟩,
        ⟨1, [true, true, true, true, false]⟩]).Accuracy = some a ∧
      0 ≤ a ∧ a ≤ 1) :=
  epoch_accuracy_in_unit_interval 1 0 [⟨2, [true], 5⟩]
    [⟨1, [true, true, true, false, false]⟩,
     ⟨1, [true, true, true, true, false]⟩]
    (by decide) (by decide) (by decide) (by decide)

lemma countP_schedArg (l : List Event) :
    l.countP isSchedulerStep = (l.filterMap schedArg).length := by
  induction l with
  | nil => rfl
  | cons a l ih =>
    cases a <;>
      simp [List.countP_cons, isSchedulerStep, schedArg, ih, List.filterMap_cons]

lemma epochBody_schedArgs (lf : ℕ) (s : RunState) (e : ℕ) (d : EpochData) :
    ((epochBody lf s e d).2).filterMap schedArg = [e + 1] := by
  have hev : (epochBody lf s e d).2 =
      Event.schedulerStep (e + 1) ::
        (trainEpochStep lf ⟨s.log_iter, [], []⟩ d.train).2 ++
        [Event.validCall e false, Event.validCall e true, Event.gcCollect,
         Event.saveCheckpoint e
           (bestUpdate (validOneEpoch d.valid).Accuracy s.best_model_metric).1
           (bestUpdate (validOneEpoch d.validEma).Accuracy
             s.best_model_ema_metric).1,
         Event.writeLogCall e] := rfl
  have hnil : ((trainEpochStep lf ⟨s.log_iter, [], []⟩ d.train).2).filterMap
      schedArg = [] :=
    filterMap_schedArg_eq_nil _
      (trainEpochStep_batchLevel lf d.train ⟨s.log_iter, [], []⟩)
  have hhead : schedArg (Event.schedulerStep (e + 1)) = some (e + 1) := rfl
  rw [hev, List.filterMap_append, List.filterMap_cons_some hhead, hnil]
  simp [List.filterMap_cons, schedArg]

lemma runEpochs_schedArgs (lf : ℕ) (data : ℕ → EpochData) :
    ∀ (es : List ℕ) (s : RunState),
      ((runEpochs lf data s es).2).filterMap schedArg = es.map (· + 1) := by
  intro es
  induction es with
  | nil => intro s; rfl
  | cons e es ih =>
    intro s
    have hq : (runEpochs lf data s (e :: es)).2 =
        (epochBody lf s e (data e)).2 ++
          (runEpochs lf data (epochBody lf s e (data e)).1 es).2 := rfl
    rw [hq, List.filterMap_append, ih, epochBody_schedArgs]
    rfl

/-- C7: when `start_epoch < max_epoch`, `run` performs exactly
`max_epoch - start_epoch` epoch iterations — the scheduler-step arguments
recorded in the trace are exactly `start_epoch+1, ..., max_epoch`, one per
epoch — and every epoch body emits its effects in the fixed order:
scheduler step, the training-epoch events, validation call (live),
validation call (EMA), garbage collection, checkpoint save carrying the
best-metric comparison flags, then the epoch-level log write. -/
theorem run_epoch_structure (lf : ℕ) (data : ℕ → EpochData) (s : RunState)
    (st mx : ℕ) (_h : st < mx) :
    ((run lf st mx data s).2).filterMap schedArg =
      (List.range' st (mx - st)).map (· + 1) ∧
    ((run lf st mx data s).2).countP isSchedulerStep = mx - st ∧
    (∀ (u : RunState) (e : ℕ) (d : EpochData), ∃ b be,
        (epochBody lf u e d).2 =
          Event.schedulerStep (e + 1) ::
            (trainOneEpoch lf u.log_iter d.train).2.2 ++
            [Event.validCall e false, Event.validCall e true, Event.gcCollect,
             Event.saveCheckpoint e b be, Event.writeLogCall e]) := by
  have h1 : ((run lf st mx data s).2).filterMap schedArg =
      (List.range' st (mx - st)).map (· + 1) := by
    have hrun : (run lf st mx data s).2 =
        Event.zeroGrad :: Event.optStep ::
          (runEpochs lf data s (List.range' st (mx - st))).2 := rfl
    have hz : schedArg Event.zeroGrad = none := rfl
    have ho : schedArg Event.optStep = none := rfl
    rw [hrun, List.filterMap_cons_none hz, List.filterMap_cons_none ho,
      runEpochs_schedArgs]
  refine ⟨h1, ?_, ?_⟩
  · rw [countP_schedArg, h1, List.length_map, List.length_range']
  · exact fun u e d =>
      ⟨(bestUpdate (validOneEpoch d.valid).Accuracy u.best_model_metric).1,
       (bestUpdate (validOneEpoch d.validEma).Accuracy
         u.best_model_ema_metric).1, rfl⟩

/-- Witness for C7 at a concrete input: one epoch (`start_epoch = 0`,
`max_epoch = 1`) over empty loaders. -/
theorem run_epoch_structure_witness :
    ((run 1 0 1 (fun _ => ⟨[], [], []⟩) ⟨0, 0, 0⟩).2).filterMap schedArg =
      (List.range' 0 1).map (· + 1) ∧
    ((run 1 0 1 (fun _ => ⟨[], [], []⟩) ⟨0, 0, 0⟩).2).countP
      isSchedulerStep = 1 ∧
    (∀ (u : RunState) (e : ℕ) (d : EpochData), ∃ b be,
        (epochBody 1 u e d).2 =
          Event.schedulerStep (e + 1) ::
            (trainOneEpoch 1 u.log_iter d.train).2.2 ++
            [Event.validCall e false, Event.validCall e true, Event.gcCollect,
             Event.saveCheckpoint e b be, Event.writeLogCall e]) :=
  run_epoch_structure 1 (fun _ => ⟨[], [], []⟩) ⟨0, 0, 0⟩ 0 1 (by decide)

/-- C8: when `max_epoch == start_epoch`, `run` performs zero epoch
iterations: its whole trace is the initial dummy `zero_grad`/`step` pair,
no checkpoint is saved, and the best-metric scalars and the logging
counter keep their previous values. -/
theorem run_zero_epochs (lf m : ℕ) (data : ℕ → EpochData) (s : RunState) :
    run lf m m data s = (s, [Event.zeroGrad, Event.optStep]) ∧
    ((run lf m m data s).2).countP isSaveCheckpoint = 0 ∧
    (run lf m m data s).1.best_model_metric = s.best_model_metric ∧
    (run lf m m data s).1.best_model_ema_metric = s.best_model_ema_metric ∧
    (run lf m m data s).1.log_iter = s.log_iter := by
  have hr : List.range' m (m - m) = ([] : List ℕ) := by
    rw [Nat.sub_self]
    rfl
  have hrun : run lf m m data s = (s, [Event.zeroGrad, Event.optStep]) := by
    simp only [run, hr, runEpochs]
  exact ⟨hrun, by rw [hrun]; rfl, by rw [hrun], by rw [hrun], by rw [hrun]⟩

/-- C9: on a loader yielding zero batches, the histories stay empty and
`np.mean` of an empty history is NaN (`none`): both returned metrics are
undefined, so the returned Accuracy is not a value in `[0, 1]` — the
accuracy-range property needs the non-empty-loader precondition. -/
theorem empty_loader_metrics_undefined (lf li : ℕ) :
    validOneEpoch [] = ⟨none, none⟩ ∧
    (trainOneEpoch lf li []).1 = ⟨none, none⟩ ∧
    ¬ ∃ a : ℚ, (validOneEpoch []).Accuracy = some a ∧ 0 ≤ a ∧ a ≤ 1 := by
  refine ⟨rfl, rfl, ?_⟩
  rintro ⟨a, ha, _⟩
  simp [validOneEpoch, npMean] at ha

/-- C10: `valid_one_epoch` leaves every bookkeeping field of the trainer
unchanged — `log_iter`, `best_model_metric`, `best_model_ema_metric` — and
returns exactly the pure epoch metrics; the only field it writes is the
train/eval mode of the model selected by line 158 (the live model when
`isEMA` is true, the EMA model when it is false), the other model's mode
being untouched. -/
theorem valid_one_epoch_frame (t : TrainerFields) (isEMA : Bool)
    (vb : List VBatch) :
    (validOneEpochState t isEMA vb).1 = validOneEpoch vb ∧
    (validOneEpochState t isEMA vb).2.log_iter = t.log_iter ∧
    (validOneEpochState t isEMA vb).2.best_model_metric =
      t.best_model_metric ∧
    (validOneEpochState t isEMA vb).2.best_model_ema_metric =
      t.best_model_ema_metric ∧
    (validOneEpochState t true vb).2.modelEmaTrainMode =
      t.modelEmaTrainMode ∧
    (validOneEpochState t false vb).2.modelTrainMode = t.modelTrainMode ∧
    (validOneEpochState t true vb).2.modelTrainMode = false ∧
    (validOneEpochState t false vb).2.modelEmaTrainMode = false := by
  cases isEMA <;> exact ⟨rfl, rfl, rfl, rfl, rfl, rfl, rfl, rfl⟩

end TorchClassification
